import Mathlib

/-!
Verification of the pedestrian-detection pipeline
(`Yusufygc/Goruntu_Isleme_ile_Yaya_Tespiti`).

Shallow embedding conventions:
* Python `int` is modelled as `ℤ` (or `ℕ` for values that are counts or
  image dimensions) and Python `float` as `ℚ`: every float operation the
  verified claims exercise is exact decimal/rational arithmetic, so the
  rational model coincides with IEEE-754 evaluation on those inputs.
* `int(x)` (Python truncation toward zero) is `truncRat`.
* Fallible code (`raise RuntimeError`) is modelled with `Except`.
* File/IO side effects (cv2.imwrite, json.dump, logging, wall-clock time)
  are outside the model; only the numeric state they are computed from is
  embedded.
-/

namespace YayaTespiti

/-- Python `int(q)` — truncation toward zero of a rational. -/
def truncRat (q : ℚ) : ℤ :=
  if 0 ≤ q then ⌊q⌋ else ⌈q⌉

/-- `core/detection/base_detector.py`, `Detection`: a bounding box
`(x, y, w, h)` in pixel integers plus an SVM confidence score. -/
structure Detection where
  x : ℤ
  y : ℤ
  w : ℤ
  h : ℤ
  confidence : ℚ
  deriving DecidableEq, Repr

namespace Detection

/-- `Detection.area`: `self.w * self.h`. -/
def area (d : Detection) : ℤ := d.w * d.h

/-- `Detection.center`: `(x + w // 2, y + h // 2)` (Python floor division). -/
def center (d : Detection) : ℤ × ℤ := (d.x + d.w / 2, d.y + d.h / 2)

/-- `Detection.scale`: each coordinate is divided by `factor` and truncated
with `int(...)`; the confidence is unchanged. -/
def scale (d : Detection) (factor : ℚ) : Detection :=
  { x := truncRat ((d.x : ℚ) / factor)
    y := truncRat ((d.y : ℚ) / factor)
    w := truncRat ((d.w : ℚ) / factor)
    h := truncRat ((d.h : ℚ) / factor)
    confidence := d.confidence }

end Detection

/-- `config/settings.py`, `DetectionConfig` (frozen dataclass). -/
structure DetectionConfig where
  win_stride : ℤ × ℤ := (8, 8)
  padding : ℤ × ℤ := (8, 8)
  scale : ℚ := 103 / 100
  hit_threshold : ℚ := 1 / 2
  confidence_threshold : ℚ := 1 / 2
  nms_threshold : ℚ := 2 / 5
  min_detection_size : ℤ × ℤ := (40, 80)
  max_detection_size : ℤ × ℤ := (200, 400)
  high_confidence_threshold : ℚ := 1
  min_aspect_ratio : ℚ := 13 / 10
  max_aspect_ratio : ℚ := 7 / 2
  enable_multi_pass : Bool := false
  second_pass_win_stride : ℤ × ℤ := (4, 4)
  second_pass_scale : ℚ := 102 / 100
  second_pass_padding : ℤ × ℤ := (16, 16)
  second_pass_hit_threshold : ℚ := 3 / 10
  deriving Repr

/-- The default `DetectionConfig()` of `config/settings.py`. -/
def defaultDetectionConfig : DetectionConfig := {}

/-- A video frame, abstracted to its pixel dimensions (`frame.shape[:2]`
reversed): pixel contents play no role in the verified claims. -/
structure Frame where
  width : ℕ
  height : ℕ
  deriving DecidableEq, Repr

/-- One raw candidate of `cv2.HOGDescriptor.detectMultiScale`: a box
`(x, y, w, h)` and its SVM weight. -/
structure RawCandidate where
  x : ℤ
  y : ℤ
  w : ℤ
  h : ℤ
  weight : ℚ
  deriving DecidableEq, Repr

/-- The parameter set `_single_pass` forwards to `detectMultiScale`
(`winStride`, `padding`, `scale`, `hitThreshold`). -/
structure PassParams where
  winStride : ℤ × ℤ
  padding : ℤ × ℤ
  scale : ℚ
  hitThreshold : ℚ
  deriving DecidableEq, Repr

/-- The external classifier oracle boundary (`detectMultiScale`): consumes a
frame and a parameter set, returns raw candidate boxes with scores. -/
def Oracle : Type := Frame → PassParams → List RawCandidate

/-- `core/detection/hog_detector.py`, `HOGDetector`: the `_hog` member is
`None` until `initialize()` installs the classifier oracle. -/
structure HOGDetector where
  config : DetectionConfig
  hog : Option Oracle

/-- `HOGDetector.__init__`: stores the config and leaves `_hog = None`. -/
def HOGDetector.new (config : DetectionConfig) : HOGDetector :=
  { config := config, hog := none }

/-- `HOGDetector.initialize`: installs the classifier oracle
(`cv2.HOGDescriptor` with the default people-detector SVM). -/
def HOGDetector.initializeModel (det : HOGDetector) (oracle : Oracle) : HOGDetector :=
  { det with hog := some oracle }

/-- `HOGDetector._single_pass`: one oracle call followed by the cheap
minimum-size rejection (`w < min_w` or `h < min_h` are skipped). -/
def singlePass (cfg : DetectionConfig) (oracle : Oracle) (frame : Frame)
    (p : PassParams) : List Detection :=
  ((oracle frame p).filter fun c =>
      !(decide (c.w < cfg.min_detection_size.1) ||
        decide (c.h < cfg.min_detection_size.2))).map
    fun c => { x := c.x, y := c.y, w := c.w, h := c.h, confidence := c.weight }

/-- The parameter set `HOGDetector.detect` passes to `_single_pass` for the
primary pass.  The call site supplies `win_stride`, `padding` and `scale`
from the config but omits `hit_threshold`, so the Python default argument
`0.0` of `_single_pass` is what reaches `detectMultiScale`. -/
def primaryPassParams (cfg : DetectionConfig) : PassParams :=
  { winStride := cfg.win_stride
    padding := cfg.padding
    scale := cfg.scale
    hitThreshold := 0 }

/-- The second-pass parameter set of `HOGDetector.detect` (here all four
parameters, the hit threshold included, come from the config). -/
def secondPassParams (cfg : DetectionConfig) : PassParams :=
  { winStride := cfg.second_pass_win_stride
    padding := cfg.second_pass_padding
    scale := cfg.second_pass_scale
    hitThreshold := cfg.second_pass_hit_threshold }

/-- `HOGDetector.detect`: raises (`Except.error`) when `_hog is None`;
otherwise runs the primary pass and, when multi-pass is enabled, extends the
result with the denser second pass (no deduplication). -/
def HOGDetector.detect (det : HOGDetector) (frame : Frame) :
    Except String (List Detection) :=
  match det.hog with
  | none => Except.error "Dedektör başlatılmadı. Önce initialize() çağırın."
  | some oracle =>
      Except.ok
        (singlePass det.config oracle frame (primaryPassParams det.config) ++
          if det.config.enable_multi_pass then
            singlePass det.config oracle frame (secondPassParams det.config)
          else [])

/-! ### Postprocessor (`core/postprocessing/postprocessor.py`) and the
OpenCV `cv2.dnn.NMSBoxes` primitive it delegates to. -/

/-- Area of the OpenCV rectangle intersection `a & b`: the overlap widths
are clamped at zero (an empty intersection has area 0). -/
def interArea (a b : Detection) : ℤ :=
  max 0 (min (a.x + a.w) (b.x + b.w) - max a.x b.x) *
    max 0 (min (a.y + a.h) (b.y + b.h) - max a.y b.y)

/-- Intersection-over-Union of two boxes:
`intersection / (area a + area b - intersection)`. -/
def iou (a b : Detection) : ℚ :=
  (interArea a b : ℚ) / ((a.area : ℚ) + (b.area : ℚ) - (interArea a b : ℚ))

/-- OpenCV `rectOverlap` = `1 - jaccardDistance`: when the two areas sum to
(at most) zero the jaccard distance is defined as 0, i.e. overlap 1;
otherwise it is the IoU. -/
def rectOverlap (a b : Detection) : ℚ :=
  if a.area + b.area ≤ 0 then 1 else iou a b

/-- One insertion step of the stable descending-by-score order produced by
`std::stable_sort(..., SortScorePairDescend)` inside `NMSBoxes`: a later
candidate is placed after every earlier one of greater-or-equal score. -/
def insertByConf (d : Detection) : List Detection → List Detection
  | [] => [d]
  | e :: es =>
      if e.confidence < d.confidence then d :: e :: es
      else e :: insertByConf d es

/-- Candidates in stable descending score order (`GetMaxScoreIndex`). -/
def sortByConfDesc (l : List Detection) : List Detection :=
  l.foldl (fun acc d => insertByConf d acc) []

/-- The greedy keep loop of OpenCV `NMSFast_`: a candidate is kept exactly
when its overlap with every already-kept box is `≤ nms_threshold`
(`keep = overlap <= adaptive_threshold`; `eta = 1` keeps the threshold
constant). -/
def nmsLoop (thr : ℚ) : List Detection → List Detection → List Detection
  | _, [] => []
  | kept, d :: ds =>
      if kept.all fun k => decide (rectOverlap d k ≤ thr) then
        d :: nmsLoop thr (kept ++ [d]) ds
      else nmsLoop thr kept ds

/-- `Postprocessor._apply_nms`, i.e. `cv2.dnn.NMSBoxes` on the boxes and
scores of `detections` with `score_threshold = confidence_threshold` and
`nms_threshold`: drop scores not strictly above the score threshold
(`GetMaxScoreIndex` keeps `score > threshold`), stable-sort descending,
run the greedy loop, and return the surviving detections in that order. -/
def applyNms (cfg : DetectionConfig) (detections : List Detection) :
    List Detection :=
  nmsLoop cfg.nms_threshold []
    (sortByConfDesc
      (detections.filter fun d =>
        decide (cfg.confidence_threshold < d.confidence)))

/-- `Postprocessor._is_valid_detection`: maximum-size check, the `w == 0`
division guard, then the aspect-ratio band on `h / w`. -/
def isValidDetection (cfg : DetectionConfig) (det : Detection) : Bool :=
  if det.w > cfg.max_detection_size.1 ∨ det.h > cfg.max_detection_size.2 then
    false
  else if det.w = 0 then
    false
  else
    decide (cfg.min_aspect_ratio ≤ (det.h : ℚ) / (det.w : ℚ) ∧
      (det.h : ℚ) / (det.w : ℚ) ≤ cfg.max_aspect_ratio)

/-- `Postprocessor.process`: confidence gate (`confidence ≥ threshold`),
geometric gate, early exits on empty lists, then NMS. -/
def Postprocessor.process (cfg : DetectionConfig)
    (detections : List Detection) : List Detection :=
  if detections = [] then []
  else
    let filtered :=
      (detections.filter fun d =>
          decide (cfg.confidence_threshold ≤ d.confidence)).filter
        fun d => isValidDetection cfg d
    if filtered = [] then [] else applyNms cfg filtered

/-! ### FrameSampler (`utils/frame_sampler.py`) -/

/-- `FrameSampler` state: the constructor floors `sample_interval` at 1 and
zeroes both counters.  File writing in `_save_frame` is outside the model;
its `_total_saved` increment is kept. -/
structure FrameSampler where
  sample_interval : ℕ
  min_confidence : ℚ
  frames_with_detections : ℕ
  total_saved : ℕ
  deriving DecidableEq, Repr

/-- `FrameSampler.__init__`: `self._sample_interval = max(1, sample_interval)`,
counters start at zero. -/
def FrameSampler.new (sample_interval : ℤ) (min_confidence_to_save : ℚ) :
    FrameSampler :=
  { sample_interval := (max 1 sample_interval).toNat
    min_confidence := min_confidence_to_save
    frames_with_detections := 0
    total_saved := 0 }

/-- `max(d.confidence for d in detections)` over a nonempty list. -/
def maxConfidence (d : Detection) (ds : List Detection) : ℚ :=
  (ds.map Detection.confidence).foldl max d.confidence

/-- `FrameSampler.process`: an empty detection list returns immediately;
otherwise `frames_with_detections` is incremented, the high-confidence
trigger is the chained comparison `max_conf >= min_confidence > 0`, the
periodic trigger is `frames_with_detections % sample_interval == 0`, and a
save bumps `total_saved`.  Returns the new state and whether this frame was
saved. -/
def FrameSampler.process (s : FrameSampler) (detections : List Detection) :
    FrameSampler × Bool :=
  match detections with
  | [] => (s, false)
  | d :: ds =>
      let fwd := s.frames_with_detections + 1
      let maxConf := maxConfidence d ds
      let highConfidence :=
        decide (s.min_confidence ≤ maxConf) && decide (0 < s.min_confidence)
      let shouldSave := highConfidence || decide (fwd % s.sample_interval = 0)
      ({ s with
          frames_with_detections := fwd
          total_saved := s.total_saved + if shouldSave then 1 else 0 },
        shouldSave)

/-- Feeding the sampler a sequence of frames (each given by its detection
list); returns the final state and the per-frame save decisions. -/
def runSampler (s : FrameSampler) :
    List (List Detection) → FrameSampler × List Bool
  | [] => (s, [])
  | f :: fs =>
      let step := s.process f
      let rest := runSampler step.1 fs
      (rest.1, step.2 :: rest.2)

/-! ### ReportGenerator (`utils/report_generator.py`).  Wall-clock time and
the JSON file write are outside the model; every numeric statistic of the
report is embedded. -/

/-- `FrameStats` record of `report_generator.py`. -/
structure FrameStats where
  frame_number : ℤ
  detection_count : ℤ
  confidences : List ℚ
  fps : ℚ
  deriving DecidableEq, Repr

/-- The accumulating state of `ReportGenerator`: the per-frame stats list,
the flattened confidence list, and the strictly-positive FPS samples. -/
structure ReportGenerator where
  frame_stats : List FrameStats
  all_confidences : List ℚ
  all_fps : List ℚ
  deriving DecidableEq, Repr

/-- A fresh `ReportGenerator()`: all three lists empty. -/
def ReportGenerator.new : ReportGenerator := ⟨[], [], []⟩

/-- `ReportGenerator.record_frame`: append the `FrameStats`, extend the flat
confidence list, and record the FPS sample only when `fps > 0`. -/
def ReportGenerator.record_frame (r : ReportGenerator) (frame_number : ℤ)
    (detection_count : ℤ) (confidences : List ℚ) (fps : ℚ) :
    ReportGenerator :=
  { frame_stats :=
      r.frame_stats ++ [⟨frame_number, detection_count, confidences, fps⟩]
    all_confidences := r.all_confidences ++ confidences
    all_fps := r.all_fps ++ if 0 < fps then [fps] else [] }

/-- Round half to even to an integer (Python `round`). -/
def roundHalfEven (q : ℚ) : ℤ :=
  if Int.fract q < 1 / 2 then ⌊q⌋
  else if 1 / 2 < Int.fract q then ⌊q⌋ + 1
  else if ⌊q⌋ % 2 = 0 then ⌊q⌋ else ⌊q⌋ + 1

/-- Python `round(x, 4)`. -/
def round4 (q : ℚ) : ℚ := (roundHalfEven (q * 10000) : ℚ) / 10000

/-- `ReportGenerator._safe_avg`: `0.0` on the empty list, otherwise
`round(sum / len, 4)`. -/
def safeAvg (values : List ℚ) : ℚ :=
  if values = [] then 0 else round4 (values.sum / values.length)

/-- Python `min(xs) if xs else 0`. -/
def listMinOr0 : List ℚ → ℚ
  | [] => 0
  | x :: xs => xs.foldl min x

/-- Python `max(xs) if xs else 0`. -/
def listMaxOr0 : List ℚ → ℚ
  | [] => 0
  | x :: xs => xs.foldl max x

/-- The numeric fields of `DetectionReport` that `generate` computes from
the accumulated state (video metadata, elapsed time and the top-frame list
are pass-through or non-numeric and are not needed by the claims). -/
structure DetectionReport where
  total_processed_frames : ℕ
  frames_with_detections : ℕ
  frames_without_detections : ℕ
  total_detections : ℤ
  avg_confidence : ℚ
  min_confidence : ℚ
  max_confidence : ℚ
  avg_fps : ℚ
  min_fps : ℚ
  max_fps : ℚ
  deriving DecidableEq, Repr

/-- `ReportGenerator.generate` (its statistics computation):
`frames_with = sum(1 for s in stats if s.detection_count > 0)`,
`frames_without = len(stats) - frames_with`, total detections summed over
the stats, and safe averages / min / max with `0` defaults. -/
def ReportGenerator.generate (r : ReportGenerator) : DetectionReport :=
  let framesWith :=
    (r.frame_stats.filter fun s => decide (0 < s.detection_count)).length
  { total_processed_frames := r.frame_stats.length
    frames_with_detections := framesWith
    frames_without_detections := r.frame_stats.length - framesWith
    total_detections := (r.frame_stats.map FrameStats.detection_count).sum
    avg_confidence := safeAvg r.all_confidences
    min_confidence := listMinOr0 r.all_confidences
    max_confidence := listMaxOr0 r.all_confidences
    avg_fps := safeAvg r.all_fps
    min_fps := listMinOr0 r.all_fps
    max_fps := listMaxOr0 r.all_fps }

/-- One `record_frame` call's arguments. -/
structure RecordCall where
  frame_number : ℤ
  detection_count : ℤ
  confidences : List ℚ
  fps : ℚ
  deriving DecidableEq, Repr

/-- Replaying a sequence of `record_frame` calls on a fresh generator. -/
def recordAll (calls : List RecordCall) : ReportGenerator :=
  calls.foldl
    (fun r c => r.record_frame c.frame_number c.detection_count c.confidences c.fps)
    ReportGenerator.new

/-! ### Preprocessor (`core/preprocessing/preprocessor.py`), resize step.
Pixel-level filtering (blur, CLAHE, sharpening) does not change frame
dimensions and is outside the dimension-level model. -/

/-- The `Preprocessor` state the resize step touches: the configured target
width and the mutable `_scale_factor` (initialised to `1.0`). -/
structure Preprocessor where
  target_width : ℕ
  scale_factor : ℚ
  deriving DecidableEq, Repr

/-- A fresh `Preprocessor`: `self._scale_factor = 1.0`. -/
def Preprocessor.new (target_width : ℕ) : Preprocessor :=
  { target_width := target_width, scale_factor := 1 }

/-- `Preprocessor._resize`: no-op with `scale_factor = 1.0` when
`width <= target_width`; otherwise `scale_factor = target_width / width`,
`new_height = int(height * scale_factor)`, and `cv2.resize` to
`(target_width, new_height)`. -/
def Preprocessor.resize (p : Preprocessor) (frame : Frame) :
    Preprocessor × Frame :=
  if frame.width ≤ p.target_width then
    ({ p with scale_factor := 1 }, frame)
  else
    let sf : ℚ := (p.target_width : ℚ) / (frame.width : ℚ)
    ({ p with scale_factor := sf },
      { width := p.target_width
        height := (truncRat ((frame.height : ℚ) * sf)).toNat })

/-! ## Helper lemmas -/

theorem abs_truncRat_sub_lt (q : ℚ) : |(truncRat q : ℚ) - q| < 1 := by
  unfold truncRat
  split
  · rename_i h
    have h1 := Int.floor_le q
    have h2 := Int.lt_floor_add_one q
    rw [abs_lt]
    constructor <;> linarith
  · rename_i h
    have h1 := Int.le_ceil q
    have h2 := Int.ceil_lt_add_one q
    rw [abs_lt]
    constructor <;> linarith

theorem truncRat_roundtrip_abs_le (n : ℤ) (f : ℚ) (h0 : 0 < f) (h1 : f ≤ 1) :
    |truncRat ((truncRat ((n : ℚ) / f) : ℚ) / (1 / f)) - n| ≤ 1 := by
  have hf : f ≠ 0 := ne_of_gt h0
  set q1 : ℚ := (n : ℚ) / f with hq1
  set m : ℤ := truncRat q1 with hm
  have hdiv : (m : ℚ) / (1 / f) = (m : ℚ) * f := by
    rw [div_div_eq_mul_div, div_one]
  rw [hdiv]
  set r : ℤ := truncRat ((m : ℚ) * f) with hr
  have e1 : |(m : ℚ) - q1| < 1 := abs_truncRat_sub_lt q1
  have e2 : |(r : ℚ) - (m : ℚ) * f| < 1 := abs_truncRat_sub_lt ((m : ℚ) * f)
  have hq1f : q1 * f = (n : ℚ) := div_mul_cancel₀ (n : ℚ) hf
  have hsplit : (r : ℚ) - (n : ℚ) = ((r : ℚ) - (m : ℚ) * f) + ((m : ℚ) - q1) * f := by
    rw [sub_mul, ← hq1f]; ring
  have habs : |(r : ℚ) - (n : ℚ)| ≤ |(r : ℚ) - (m : ℚ) * f| + |(m : ℚ) - q1| * f := by
    calc |(r : ℚ) - (n : ℚ)|
        ≤ |(r : ℚ) - (m : ℚ) * f| + |((m : ℚ) - q1) * f| := by
          rw [hsplit]; exact abs_add _ _
      _ = |(r : ℚ) - (m : ℚ) * f| + |(m : ℚ) - q1| * f := by
          rw [abs_mul, abs_of_pos h0]
  have hmul : |(m : ℚ) - q1| * f < 1 * f := mul_lt_mul_of_pos_right e1 h0
  have hlt : |(r : ℚ) - (n : ℚ)| < 2 := by
    have : (1 : ℚ) * f ≤ 1 := by rw [one_mul]; exact h1
    linarith
  have hcast : ((|r - n| : ℤ) : ℚ) < 2 := by push_cast; exact hlt
  have : |r - n| < 2 := by exact_mod_cast hcast
  omega

theorem mem_insertByConf {x d : Detection} :
    ∀ {l : List Detection}, x ∈ insertByConf d l → x = d ∨ x ∈ l := by
  intro l
  induction l with
  | nil => simp [insertByConf]
  | cons e es ih =>
      simp only [insertByConf]
      split
      · intro h
        rcases List.mem_cons.mp h with h | h
        · exact Or.inl h
        · exact Or.inr h
      · intro h
        rcases List.mem_cons.mp h with h | h
        · exact Or.inr (List.mem_cons.mpr (Or.inl h))
        · rcases ih h with h | h
          · exact Or.inl h
          · exact Or.inr (List.mem_cons.mpr (Or.inr h))

theorem mem_foldl_insertByConf {x : Detection} :
    ∀ {l acc : List Detection},
      x ∈ l.foldl (fun a d => insertByConf d a) acc → x ∈ acc ∨ x ∈ l := by
  intro l
  induction l with
  | nil => intro acc h; exact Or.inl h
  | cons d ds ih =>
      intro acc h
      rcases ih h with h | h
      · rcases mem_insertByConf h with h | h
        · exact Or.inr (List.mem_cons.mpr (Or.inl h))
        · exact Or.inl h
      · exact Or.inr (List.mem_cons.mpr (Or.inr h))

theorem mem_sortByConfDesc {x : Detection} {l : List Detection}
    (h : x ∈ sortByConfDesc l) : x ∈ l := by
  rcases mem_foldl_insertByConf h with h | h
  · simp at h
  · exact h

theorem mem_nmsLoop {x : Detection} {thr : ℚ} :
    ∀ {ds kept : List Detection}, x ∈ nmsLoop thr kept ds → x ∈ ds := by
  intro ds
  induction ds with
  | nil => intro kept h; simp [nmsLoop] at h
  | cons d ds ih =>
      intro kept h
      simp only [nmsLoop] at h
      split at h
      · rcases List.mem_cons.mp h with h | h
        · exact List.mem_cons.mpr (Or.inl h)
        · exact List.mem_cons.mpr (Or.inr (ih h))
      · exact List.mem_cons.mpr (Or.inr (ih h))

theorem mem_applyNms {x : Detection} {cfg : DetectionConfig} {l : List Detection}
    (h : x ∈ applyNms cfg l) : x ∈ l := by
  have h1 := mem_nmsLoop h
  have h2 := mem_sortByConfDesc h1
  exact (List.mem_filter.mp h2).1

theorem mem_process {cfg : DetectionConfig} {dets : List Detection} {d : Detection}
    (h : d ∈ Postprocessor.process cfg dets) :
    d ∈ dets ∧ cfg.confidence_threshold ≤ d.confidence ∧
      isValidDetection cfg d = true := by
  simp only [Postprocessor.process] at h
  split at h
  · simp at h
  · split at h
    · simp at h
    · have h1 := mem_applyNms h
      have h2 := List.mem_filter.mp h1
      have h3 := List.mem_filter.mp h2.1
      refine ⟨h3.1, ?_, h2.2⟩
      exact of_decide_eq_true h3.2

theorem of_isValidDetection {cfg : DetectionConfig} {d : Detection}
    (h : isValidDetection cfg d = true) :
    d.w ≤ cfg.max_detection_size.1 ∧ d.h ≤ cfg.max_detection_size.2 ∧
      d.w ≠ 0 ∧ cfg.min_aspect_ratio ≤ (d.h : ℚ) / (d.w : ℚ) ∧
      (d.h : ℚ) / (d.w : ℚ) ≤ cfg.max_aspect_ratio := by
  unfold isValidDetection at h
  split_ifs at h with h1 h2
  push_neg at h1
  have hband := of_decide_eq_true h
  exact ⟨h1.1, h1.2, h2, hband.1, hband.2⟩

theorem isValidDetection_zero_width (cfg : DetectionConfig) (d : Detection)
    (hw : d.w = 0) : isValidDetection cfg d = false := by
  simp [isValidDetection, hw]

theorem interArea_comm (a b : Detection) : interArea a b = interArea b a := by
  unfold interArea
  rw [min_comm (a.x + a.w), max_comm a.x, min_comm (a.y + a.h), max_comm a.y]

theorem iou_comm (a b : Detection) : iou a b = iou b a := by
  unfold iou
  rw [interArea_comm, add_comm (a.area : ℚ) (b.area : ℚ)]

theorem rectOverlap_comm (a b : Detection) : rectOverlap a b = rectOverlap b a := by
  unfold rectOverlap
  rw [iou_comm, add_comm a.area b.area]

theorem rectOverlap_eq_iou {a b : Detection} (h : 0 < a.area + b.area) :
    rectOverlap a b = iou a b := by
  unfold rectOverlap
  rw [if_neg (not_le.mpr h)]

theorem nmsLoop_pairwise (thr : ℚ) :
    ∀ (ds kept : List Detection),
      kept.Pairwise (fun a b => rectOverlap a b ≤ thr) →
      (kept ++ nmsLoop thr kept ds).Pairwise
        (fun a b => rectOverlap a b ≤ thr) := by
  intro ds
  induction ds with
  | nil => intro kept hk; simpa [nmsLoop] using hk
  | cons d ds ih =>
      intro kept hk
      simp only [nmsLoop]
      split
      · rename_i hall
        have hall' : ∀ k ∈ kept, rectOverlap d k ≤ thr := by
          intro k hkmem
          have := List.all_eq_true.mp hall k hkmem
          exact of_decide_eq_true this
        have hk' : (kept ++ [d]).Pairwise (fun a b => rectOverlap a b ≤ thr) := by
          rw [List.pairwise_append]
          refine ⟨hk, by simp, ?_⟩
          intro a ha b hb
          have hb' : b = d := by simpa using hb
          subst hb'
          rw [rectOverlap_comm]
          exact hall' a ha
        have := ih (kept ++ [d]) hk'
        simpa [List.append_assoc] using this
      · exact ih kept hk

theorem area_pos_of_valid {cfg : DetectionConfig} {d : Detection}
    (hmin : 0 < cfg.min_aspect_ratio) (h : isValidDetection cfg d = true) :
    0 < d.area := by
  obtain ⟨-, -, hw, hband, -⟩ := of_isValidDetection h
  have hwq : (d.w : ℚ) ≠ 0 := by exact_mod_cast hw
  have hr : 0 < (d.h : ℚ) / (d.w : ℚ) := lt_of_lt_of_le hmin hband
  have hww : 0 < (d.w : ℚ) * (d.w : ℚ) := mul_self_pos.mpr hwq
  have hkey : ((d.h : ℚ) / (d.w : ℚ)) * ((d.w : ℚ) * (d.w : ℚ)) =
      (d.h : ℚ) * (d.w : ℚ) := by
    field_simp
    ring
  have hpos : 0 < (d.h : ℚ) * (d.w : ℚ) := by
    rw [← hkey]; exact mul_pos hr hww
  have hZ : (0 : ℤ) < d.h * d.w := by exact_mod_cast hpos
  simpa [Detection.area, mul_comm] using hZ

theorem applyNms_pairwise (cfg : DetectionConfig) (l : List Detection) :
    (applyNms cfg l).Pairwise (fun a b => rectOverlap a b ≤ cfg.nms_threshold) := by
  unfold applyNms
  have := nmsLoop_pairwise cfg.nms_threshold
    (sortByConfDesc
      (l.filter fun d => decide (cfg.confidence_threshold < d.confidence)))
    [] List.Pairwise.nil
  simpa using this

theorem process_pairwise_rectOverlap (cfg : DetectionConfig)
    (dets : List Detection) :
    (Postprocessor.process cfg dets).Pairwise
      (fun a b => rectOverlap a b ≤ cfg.nms_threshold) := by
  simp only [Postprocessor.process]
  split
  · exact List.Pairwise.nil
  · split
    · exact List.Pairwise.nil
    · exact applyNms_pairwise cfg _

theorem foldl_record_frame_stats (calls : List RecordCall) :
    ∀ r : ReportGenerator,
      (calls.foldl
          (fun r c =>
            r.record_frame c.frame_number c.detection_count c.confidences c.fps)
          r).frame_stats =
        r.frame_stats ++
          calls.map fun c =>
            ⟨c.frame_number, c.detection_count, c.confidences, c.fps⟩ := by
  induction calls with
  | nil => intro r; simp
  | cons c cs ih =>
      intro r
      rw [List.foldl_cons, ih]
      simp [ReportGenerator.record_frame]

/-! ## Claim theorems -/

/-- C1: the spec claims `detect`'s primary pass runs the classifier oracle
with the full primary parameter set including the configured
`hit_threshold`, and `settings.py` documents `hit_threshold` as the
HOG-level SVM decision threshold — but the call site
`hog_detector.py:100-105` passes only `win_stride`, `padding` and `scale`,
so the `_single_pass` default `hit_threshold=0.0` reaches
`detectMultiScale` and `config.hit_threshold` (default `0.5`) is never
read: the configured decision threshold is silently ignored on every
frame. -/
theorem C1_primary_pass_hit_threshold_ignored :
    (∀ (cfg : DetectionConfig) (oracle : Oracle) (frame : Frame),
      ((HOGDetector.new cfg).initializeModel oracle).detect frame =
        Except.ok
          (singlePass cfg oracle frame (primaryPassParams cfg) ++
            if cfg.enable_multi_pass then
              singlePass cfg oracle frame (secondPassParams cfg)
            else [])) ∧
    (∀ cfg : DetectionConfig, (primaryPassParams cfg).hitThreshold = 0) ∧
    defaultDetectionConfig.hit_threshold = 1 / 2 ∧
    (primaryPassParams defaultDetectionConfig).hitThreshold ≠
      defaultDetectionConfig.hit_threshold := by
  refine ⟨fun cfg oracle frame => rfl, fun cfg => rfl, rfl, ?_⟩
  norm_num [primaryPassParams, defaultDetectionConfig]

/-- C2 counterexample: with the default config (`nms_threshold = 0.4`) the
two boxes `(0,0,70,140)` and `(30,0,70,140)` have IoU exactly `0.4`; both
pass every gate and both survive NMS (OpenCV keeps overlap `<=` the
threshold), so two distinct surviving detections have IoU `= 0.4`, not
strictly below it — the claim's strict `<` is false. -/
theorem C2_counterexample :
    Postprocessor.process defaultDetectionConfig
        [⟨0, 0, 70, 140, 19/20⟩, ⟨30, 0, 70, 140, 9/10⟩] =
      [⟨0, 0, 70, 140, 19/20⟩, ⟨30, 0, 70, 140, 9/10⟩] ∧
    (⟨0, 0, 70, 140, 19/20⟩ : Detection) ≠ ⟨30, 0, 70, 140, 9/10⟩ ∧
    iou ⟨0, 0, 70, 140, 19/20⟩ ⟨30, 0, 70, 140, 9/10⟩ =
      defaultDetectionConfig.nms_threshold ∧
    ¬ iou ⟨0, 0, 70, 140, 19/20⟩ ⟨30, 0, 70, 140, 9/10⟩ <
        defaultDetectionConfig.nms_threshold := by
  refine ⟨?_, ?_, ?_, ?_⟩
  · norm_num [Postprocessor.process, applyNms, sortByConfDesc, insertByConf,
      nmsLoop, isValidDetection, rectOverlap, iou, interArea, Detection.area,
      defaultDetectionConfig, List.filter, List.cons_ne_nil]
  · norm_num [Detection.mk.injEq]
  · norm_num [iou, interArea, Detection.area, defaultDetectionConfig]
  · norm_num [iou, interArea, Detection.area, defaultDetectionConfig]

/-- C2 (amended): for every input list, any two distinct detections
surviving `Postprocessor.process` have IoU at most (`≤`, equality
possible) `nms_threshold` — the greedy loop keeps a box whose overlap with
every already-kept box is `<=` the threshold.  Stated for any config whose
`min_aspect_ratio` is positive (as the fixed configuration's `1.3` is),
which makes every surviving box's area positive so that the code's overlap
measure is the IoU. -/
theorem C2_nms_survivors_iou_le (cfg : DetectionConfig)
    (hmin : 0 < cfg.min_aspect_ratio) (dets : List Detection) :
    (Postprocessor.process cfg dets).Pairwise
      (fun a b => iou a b ≤ cfg.nms_threshold) := by
  have hp := process_pairwise_rectOverlap cfg dets
  refine hp.imp_of_mem ?_
  intro a b ha hb hR
  have hA := area_pos_of_valid hmin (mem_process ha).2.2
  have hB := area_pos_of_valid hmin (mem_process hb).2.2
  rwa [rectOverlap_eq_iou (by linarith)] at hR

/-- C2 witness: the amended theorem applied to the default configuration
and a concrete detection list. -/
theorem C2_witness :
    0 < defaultDetectionConfig.min_aspect_ratio ∧
    (Postprocessor.process defaultDetectionConfig
        [⟨0, 0, 70, 140, 19/20⟩, ⟨30, 0, 70, 140, 9/10⟩]).Pairwise
      (fun a b => iou a b ≤ defaultDetectionConfig.nms_threshold) :=
  ⟨by norm_num [defaultDetectionConfig],
    C2_nms_survivors_iou_le defaultDetectionConfig
      (by norm_num [defaultDetectionConfig]) _⟩

/-- C3: every detection surviving `Postprocessor.process` passed the
confidence gate (`confidence ≥ confidence_threshold`) and the geometric
gate (`w ≤ max_width`, `h ≤ max_height`, `w ≠ 0`, and
`min_aspect_ratio ≤ h/w ≤ max_aspect_ratio`); a zero-width detection is
rejected by the geometric gate (`_is_valid_detection` returns `False`
before dividing). -/
theorem C3_gate_properties :
    (∀ (cfg : DetectionConfig) (dets : List Detection) (d : Detection),
      d ∈ Postprocessor.process cfg dets →
      cfg.confidence_threshold ≤ d.confidence ∧
        d.w ≤ cfg.max_detection_size.1 ∧ d.h ≤ cfg.max_detection_size.2 ∧
        d.w ≠ 0 ∧
        cfg.min_aspect_ratio ≤ (d.h : ℚ) / (d.w : ℚ) ∧
        (d.h : ℚ) / (d.w : ℚ) ≤ cfg.max_aspect_ratio) ∧
    (∀ (cfg : DetectionConfig) (d : Detection), d.w = 0 →
      isValidDetection cfg d = false) := by
  refine ⟨?_, isValidDetection_zero_width⟩
  intro cfg dets d hd
  obtain ⟨-, hconf, hvalid⟩ := mem_process hd
  obtain ⟨h1, h2, h3, h4, h5⟩ := of_isValidDetection hvalid
  exact ⟨hconf, h1, h2, h3, h4, h5⟩

/-- C3 witness: the gate properties evaluated on a concrete surviving
detection under the default configuration. -/
theorem C3_witness :
    defaultDetectionConfig.confidence_threshold ≤
        (Detection.mk 0 0 70 140 (19/20)).confidence ∧
      (Detection.mk 0 0 70 140 (19/20)).w ≤
        defaultDetectionConfig.max_detection_size.1 ∧
      (Detection.mk 0 0 70 140 (19/20)).h ≤
        defaultDetectionConfig.max_detection_size.2 ∧
      (Detection.mk 0 0 70 140 (19/20)).w ≠ 0 ∧
      defaultDetectionConfig.min_aspect_ratio ≤
        ((Detection.mk 0 0 70 140 (19/20)).h : ℚ) /
          ((Detection.mk 0 0 70 140 (19/20)).w : ℚ) ∧
      ((Detection.mk 0 0 70 140 (19/20)).h : ℚ) /
          ((Detection.mk 0 0 70 140 (19/20)).w : ℚ) ≤
        defaultDetectionConfig.max_aspect_ratio :=
  C3_gate_properties.1 defaultDetectionConfig [⟨0, 0, 70, 140, 19/20⟩] _
    (by norm_num [Postprocessor.process, applyNms, sortByConfDesc, insertByConf,
      nmsLoop, isValidDetection, rectOverlap, iou, interArea, Detection.area,
      defaultDetectionConfig, List.filter, List.cons_ne_nil])

/-- C4: `Postprocessor.process` (its NMS stage included) only removes
detections — every output detection is an element of the input list. -/
theorem C4_output_subset_of_input (cfg : DetectionConfig)
    (dets : List Detection) (d : Detection)
    (hd : d ∈ Postprocessor.process cfg dets) : d ∈ dets :=
  (mem_process hd).1

/-- C4 witness: the subset property evaluated on a concrete input list. -/
theorem C4_witness :
    (⟨5, 5, 60, 120, 3⟩ : Detection) ∈ ([⟨5, 5, 60, 120, 3⟩] : List Detection) :=
  C4_output_subset_of_input defaultDetectionConfig [⟨5, 5, 60, 120, 3⟩] _
    (by norm_num [Postprocessor.process, applyNms, sortByConfDesc, insertByConf,
      nmsLoop, isValidDetection, rectOverlap, iou, interArea, Detection.area,
      defaultDetectionConfig, List.filter, List.cons_ne_nil])

/-- C5: for `0 < f ≤ 1`, `d.scale(f).scale(1/f)` keeps the confidence and
reconstructs each box coordinate within the combined integer-truncation
error of the two scalings, i.e. to within 1 pixel. -/
theorem C5_scale_roundtrip (d : Detection) (f : ℚ) (h0 : 0 < f) (h1 : f ≤ 1) :
    ((d.scale f).scale (1 / f)).confidence = d.confidence ∧
    |((d.scale f).scale (1 / f)).x - d.x| ≤ 1 ∧
    |((d.scale f).scale (1 / f)).y - d.y| ≤ 1 ∧
    |((d.scale f).scale (1 / f)).w - d.w| ≤ 1 ∧
    |((d.scale f).scale (1 / f)).h - d.h| ≤ 1 := by
  refine ⟨rfl, ?_, ?_, ?_, ?_⟩
  · exact truncRat_roundtrip_abs_le d.x f h0 h1
  · exact truncRat_roundtrip_abs_le d.y f h0 h1
  · exact truncRat_roundtrip_abs_le d.w f h0 h1
  · exact truncRat_roundtrip_abs_le d.h f h0 h1

/-- C5 witness: the roundtrip theorem applied at `f = 1/2` to a concrete
detection. -/
theorem C5_witness :
    (0 : ℚ) < 1/2 ∧ (1/2 : ℚ) ≤ 1 ∧
    (((Detection.mk 3 5 7 9 1).scale (1/2)).scale (1/(1/2))).confidence =
        (Detection.mk 3 5 7 9 1).confidence ∧
      |(((Detection.mk 3 5 7 9 1).scale (1/2)).scale (1/(1/2))).x -
          (Detection.mk 3 5 7 9 1).x| ≤ 1 ∧
      |(((Detection.mk 3 5 7 9 1).scale (1/2)).scale (1/(1/2))).y -
          (Detection.mk 3 5 7 9 1).y| ≤ 1 ∧
      |(((Detection.mk 3 5 7 9 1).scale (1/2)).scale (1/(1/2))).w -
          (Detection.mk 3 5 7 9 1).w| ≤ 1 ∧
      |(((Detection.mk 3 5 7 9 1).scale (1/2)).scale (1/(1/2))).h -
          (Detection.mk 3 5 7 9 1).h| ≤ 1 :=
  ⟨by norm_num, by norm_num,
    C5_scale_roundtrip ⟨3, 5, 7, 9, 1⟩ (1/2) (by norm_num) (by norm_num)⟩

/-- C6 counterexample: the high-confidence trigger is `max_conf >=
min_confidence > 0`, not a strict "exceeds": a sampler with override
threshold `1.5` and interval `10`, fed its first frame with one detection
of confidence exactly `1.5`, saves the frame although the claim's two
triggers (strictly exceeding the override; the updated counter being a
multiple of the interval) are both false. -/
theorem C6_counterexample :
    ((FrameSampler.new 10 (3/2)).process [⟨0, 0, 50, 100, 3/2⟩]).2 = true ∧
    ¬ ((3/2 : ℚ) > 3/2 ∨
        ((FrameSampler.new 10 (3/2)).frames_with_detections + 1) %
            (FrameSampler.new 10 (3/2)).sample_interval = 0) := by
  constructor
  · norm_num [FrameSampler.process, FrameSampler.new, maxConfidence,
      show Int.toNat 10 = 10 from rfl]
  · norm_num [FrameSampler.new, show Int.toNat 10 = 10 from rfl]

set_option maxRecDepth 8000 in
/-- C6 (amended): a frame with no detections changes neither counter; a
frame with detections increments `frames_with_detections` by one and is
saved exactly when the override threshold is positive and the maximum
confidence is at least (`≥`, not strictly above) that threshold, or the
updated counter is a multiple of `sample_interval` (floored to 1 at
construction); with `sample_interval = 10` and 25 consecutive
one-detection frames below the override, exactly the 10th and 20th frames
are saved and the counter ends at 25. -/
theorem C6_sampler_policy :
    (∀ s : FrameSampler, s.process [] = (s, false)) ∧
    (∀ (s : FrameSampler) (d : Detection) (ds : List Detection),
      (s.process (d :: ds)).1.frames_with_detections =
          s.frames_with_detections + 1 ∧
        (s.process (d :: ds)).1.total_saved =
          s.total_saved + (if (s.process (d :: ds)).2 then 1 else 0) ∧
        ((s.process (d :: ds)).2 = true ↔
          (0 < s.min_confidence ∧ s.min_confidence ≤ maxConfidence d ds) ∨
            (s.frames_with_detections + 1) % s.sample_interval = 0)) ∧
    (runSampler (FrameSampler.new 10 (3/2))
        (List.replicate 25 [⟨0, 0, 50, 100, 1⟩])).1.frames_with_detections =
      25 ∧
    (runSampler (FrameSampler.new 10 (3/2))
        (List.replicate 25 [⟨0, 0, 50, 100, 1⟩])).1.total_saved = 2 ∧
    (runSampler (FrameSampler.new 10 (3/2))
        (List.replicate 25 [⟨0, 0, 50, 100, 1⟩])).2 =
      List.replicate 9 false ++ true ::
        (List.replicate 9 false ++ true :: List.replicate 5 false) := by
  refine ⟨fun s => rfl, ?_, ?_, ?_, ?_⟩
  · intro s d ds
    refine ⟨rfl, rfl, ?_⟩
    simp only [FrameSampler.process, Bool.or_eq_true, Bool.and_eq_true,
      decide_eq_true_eq]
    tauto
  · norm_num [runSampler, FrameSampler.process, FrameSampler.new, maxConfidence,
      List.replicate, List.cons_ne_nil, show Int.toNat 10 = 10 from rfl]
  · norm_num [runSampler, FrameSampler.process, FrameSampler.new, maxConfidence,
      List.replicate, List.cons_ne_nil, show Int.toNat 10 = 10 from rfl]
  · norm_num [runSampler, FrameSampler.process, FrameSampler.new, maxConfidence,
      List.replicate, List.cons_ne_nil, show Int.toNat 10 = 10 from rfl]

/-- C7: `_safe_avg` returns `0.0` on the empty list and the (rounded)
arithmetic mean otherwise — `_safe_avg([]) = 0`, `_safe_avg([1, 3]) = 2` —
and `generate` on a generator with no recorded frames yields zero
confidence and FPS averages, minima and maxima (the model's totality is
the absence of a division error). -/
theorem C7_safe_avg_and_empty_generate :
    safeAvg [] = 0 ∧ safeAvg [1, 3] = 2 ∧
    ReportGenerator.new.generate.avg_confidence = 0 ∧
    ReportGenerator.new.generate.min_confidence = 0 ∧
    ReportGenerator.new.generate.max_confidence = 0 ∧
    ReportGenerator.new.generate.avg_fps = 0 ∧
    ReportGenerator.new.generate.min_fps = 0 ∧
    ReportGenerator.new.generate.max_fps = 0 := by
  refine ⟨rfl, ?_, rfl, rfl, rfl, rfl, rfl, rfl⟩
  norm_num [safeAvg, round4, roundHalfEven, Int.fract, List.cons_ne_nil]

/-- C8: the resize step is the identity with `scale_factor = 1` when the
frame is at most `target_width` wide; otherwise it sets
`scale_factor = target_width / width`, outputs width exactly
`target_width` and height `⌊height · scale_factor⌋`; a 1280-wide frame at
`target_width = 640` yields scale factor `1/2` and a 640×360 output. -/
theorem C8_resize (p : Preprocessor) (frame : Frame) :
    (frame.width ≤ p.target_width →
      p.resize frame = ({ p with scale_factor := 1 }, frame)) ∧
    (p.target_width < frame.width →
      (p.resize frame).1.scale_factor =
          (p.target_width : ℚ) / (frame.width : ℚ) ∧
        (p.resize frame).2.width = p.target_width ∧
        ((p.resize frame).2.height : ℤ) =
          ⌊(frame.height : ℚ) * ((p.target_width : ℚ) / (frame.width : ℚ))⌋) ∧
    Preprocessor.resize ⟨640, 1⟩ ⟨1280, 720⟩ = (⟨640, 1/2⟩, ⟨640, 360⟩) := by
  refine ⟨?_, ?_, ?_⟩
  · intro h
    unfold Preprocessor.resize
    rw [if_pos h]
  · intro h
    unfold Preprocessor.resize
    rw [if_neg (not_le.mpr h)]
    refine ⟨rfl, rfl, ?_⟩
    have hq : 0 ≤ (frame.height : ℚ) * ((p.target_width : ℚ) / (frame.width : ℚ)) := by
      positivity
    simp only [truncRat, if_pos hq]
    exact Int.toNat_of_nonneg (Int.floor_nonneg.mpr hq)
  · norm_num [Preprocessor.resize, truncRat]
    rfl

/-- C8 witness: the downscaling branch applied to a concrete 800×600 frame
with target width 640. -/
theorem C8_witness :
    (640 : ℕ) < 800 ∧
    (Preprocessor.resize ⟨640, 1⟩ ⟨800, 600⟩).1.scale_factor = (640 : ℚ) / 800 ∧
    (Preprocessor.resize ⟨640, 1⟩ ⟨800, 600⟩).2.width = 640 ∧
    ((Preprocessor.resize ⟨640, 1⟩ ⟨800, 600⟩).2.height : ℤ) =
      ⌊(600 : ℚ) * ((640 : ℚ) / 800)⌋ := by
  refine ⟨by norm_num, ?_⟩
  have h := (C8_resize ⟨640, 1⟩ ⟨800, 600⟩).2.1 (by norm_num)
  simpa using h

/-- C9: calling `detect` on a freshly constructed detector, on which
`initialize` has never been called, fails with the "not initialized"
error for every input frame (the `_hog is None` guard raises before any
oracle call). -/
theorem C9_detect_before_initialize_errors (cfg : DetectionConfig)
    (frame : Frame) :
    (HOGDetector.new cfg).detect frame =
      Except.error "Dedektör başlatılmadı. Önce initialize() çağırın." := rfl

/-- C10: for every sequence of `record_frame` calls the generated report is
internally consistent: the with/without-detection frame counts sum to the
total processed count, the total equals the number of calls, and
`total_detections` is the sum of the `detection_count` arguments. -/
theorem C10_report_consistency (calls : List RecordCall) :
    (recordAll calls).generate.frames_with_detections +
        (recordAll calls).generate.frames_without_detections =
      (recordAll calls).generate.total_processed_frames ∧
    (recordAll calls).generate.total_processed_frames = calls.length ∧
    (recordAll calls).generate.total_detections =
      (calls.map RecordCall.detection_count).sum := by
  have hstats : (recordAll calls).frame_stats =
      calls.map fun c =>
        ⟨c.frame_number, c.detection_count, c.confidences, c.fps⟩ := by
    have h := foldl_record_frame_stats calls ReportGenerator.new
    simpa [recordAll, ReportGenerator.new] using h
  refine ⟨?_, ?_, ?_⟩
  · simp only [ReportGenerator.generate]
    have hle := List.length_filter_le
      (fun s : FrameStats => decide ((0 : ℤ) < s.detection_count))
      (recordAll calls).frame_stats
    omega
  · simp only [ReportGenerator.generate, hstats, List.length_map]
  · simp only [ReportGenerator.generate, hstats, List.map_map]
    rfl

end YayaTespiti
